import Mathlib

/-!
Verification of the LLMRouter dispatch core: a shallow embedding of the
cache service (`src/services/cache-service.ts`), the cosine similarity
utilities (`src/services/cache-service.ts`, `src/unnamed/part_003` i.e.
`utils/vector-utils.ts`), the task classifier
(`src/services/task-classifier.ts`) and the dispatcher
(`src/unnamed/part_002`, the full `LLMRouter` the specification's section
4.4 documents step by step; `src/services/llm-router.ts` holds a simpler
variant draft of the same class, noted where it diverges).

Conventions of the embedding:
* JS numbers are modelled as rationals; `Math.sqrt` (an external primitive
  with no exact rational value in general) is passed in as a function
  parameter `sqrtQ`, and concrete runs instantiate it with `ratSqrt`,
  which is exact on perfect squares (all concrete inputs used keep sums
  of squares perfect squares).
* A JS division whose divisor is 0 produces NaN or an infinity, never a
  finite number; it is modelled by `jsDiv` returning `none`.
* Fallible TS code (thrown `Error`s) returns `Except String`.
* A single request is modelled at one instant `now` (`Date.now()` is
  treated as constant for the duration of one call).
* Strings are handled at the character-list level where the code does
  character work (lower-casing for `/i` regexes, splitting on `:` and on
  whitespace); the regex patterns of the classifier are alternations of
  literals, embedded as lists of alternative substrings.
-/

/-- The response payload (`models/types.ts`, `LLMResponse`). The optional
`usage`/`metadata` fields are an opaque payload never inspected by the
dispatch core and are not modelled. -/
structure LLMResponse where
  text : String
  model : String
  provider : String
deriving DecidableEq, Repr

/-- Capability ratings of one model (`models/types.ts`, `ModelCapabilities`). -/
structure ModelCapabilities where
  speed : ℚ
  knowledge : ℚ
  reasoning : ℚ
  creativity : ℚ
deriving DecidableEq, Repr

/-- One registered backend model (`models/types.ts`, `ModelConfig`).
The `apiConfig` blob is opaque to the router and not modelled. -/
structure ModelConfig where
  name : String
  provider : String
  capabilities : ModelCapabilities
  costPerInputToken : ℚ
  costPerOutputToken : ℚ
deriving DecidableEq, Repr

/-- Complexity tier (`models/types.ts`, `TaskComplexity`). -/
inductive TaskComplexity where
  | SIMPLE
  | MODERATE
  | COMPLEX
deriving DecidableEq, Repr

/-- The three explicit fallback strategies (`models/types.ts`,
`RequestOptions.fallbackStrategy`); `none` at use sites is the unset
default strategy. -/
inductive FallbackStrategy where
  | costAscending
  | capabilityDescending
  | specificModels
deriving DecidableEq, Repr

/-- Per-request options (`models/types.ts`, `RequestOptions`), restricted
to the fields the dispatch core reads. `minCapability` is the entry list
of the `Partial<ModelCapabilities>` object (an absent object and an empty
object filter nothing alike). -/
structure RequestOptions where
  preferredProvider : Option String := none
  preferredModel : Option String := none
  minCapability : Option (List (String × ℚ)) := none
  maxCost : Option ℚ := none
  fallbackStrategy : Option FallbackStrategy := none
  fallbackModels : Option (List String) := none
  cacheResults : Option Bool := none
deriving DecidableEq, Repr

/-- JS division: a zero divisor yields NaN or an infinity, which this
model records as `none` (no finite numeric result). -/
def jsDiv (x y : ℚ) : Option ℚ :=
  if y = 0 then none else some (x / y)

/-- Exact integer square root when one exists, found by bounded search
(kept structural so concrete runs reduce). -/
def natRoot (n : Nat) : Nat :=
  (((List.range (n + 1)).find? (fun s => decide (s * s = n))).getD 0)

/-- Exact model of `Math.sqrt` on rationals that are squares of
rationals; elsewhere `Math.sqrt` has no exact rational value and this
function is never relied upon there (concrete runs only use perfect
squares). -/
def ratSqrt (q : ℚ) : ℚ :=
  if q.num < 0 then 0
  else
    let sn := natRoot q.num.toNat
    let sd := natRoot q.den
    if sn * sn = q.num.toNat ∧ sd * sd = q.den then (sn : ℚ) / (sd : ℚ) else 0

/-- Dot product accumulated pairwise, as both cosine implementations
compute it (they index the second vector by the first one's indices, and
are only reached with equal lengths). -/
def dotQ (v w : List ℚ) : ℚ :=
  (List.zipWith (fun a b => a * b) v w).sum

/-- Sum of squares of a vector (the quantity under each `Math.sqrt`). -/
def sumsq (v : List ℚ) : ℚ :=
  (v.map (fun x => x * x)).sum

/-- `CacheService.calculateCosineSimilarity`
(`src/services/cache-service.ts` lines 88-98): checks lengths, then
divides the dot product by the product of the magnitudes with no
zero-norm guard, so a zero-norm vector makes it compute `0 / 0` (NaN,
modelled `none`). -/
def calculateCosineSimilarity (sqrtQ : ℚ → ℚ) (vec1 vec2 : List ℚ) :
    Except String (Option ℚ) :=
  if vec1.length ≠ vec2.length then
    Except.error "Vectors must be of the same length"
  else
    let dotProduct := dotQ vec1 vec2
    let magnitude1 := sqrtQ (sumsq vec1)
    let magnitude2 := sqrtQ (sumsq vec2)
    Except.ok (jsDiv dotProduct (magnitude1 * magnitude2))

/-- `cosineSimilarity` (`utils/vector-utils.ts`, `src/unnamed/part_003`
lines 3-26): same formula but returns 0 when either magnitude is zero,
so it never divides by zero. -/
def cosineSimilarity (sqrtQ : ℚ → ℚ) (a b : List ℚ) : Except String ℚ :=
  if a.length ≠ b.length then
    Except.error "Vectors must have the same dimensions"
  else
    let dotProduct := dotQ a b
    let magnitudeA := sqrtQ (sumsq a)
    let magnitudeB := sqrtQ (sumsq b)
    if magnitudeA = 0 ∨ magnitudeB = 0 then Except.ok 0
    else Except.ok (dotProduct / (magnitudeA * magnitudeB))

/-- One exact-index entry (`cache-service.ts`, `CacheEntry`). -/
structure CacheEntry where
  prompt : String
  response : LLMResponse
  embedding : Option (List ℚ)
  timestamp : ℚ
  expiresAt : ℚ
deriving DecidableEq, Repr

/-- One semantic-index entry (`cache-service.ts`, the element type of
`semanticCache`). -/
structure SemEntry where
  embedding : List ℚ
  response : LLMResponse
  timestamp : ℚ
  expiresAt : ℚ
deriving DecidableEq, Repr

/-- The mutable state of one `CacheService` instance: the exact index
(`cache : Map<string, CacheEntry>`, modelled as an insertion-ordered
association list as JS `Map` is), the semantic index array, and the
default TTL (reference constant 86400000 ms). -/
structure CacheState where
  cache : List (String × CacheEntry)
  semanticCache : List SemEntry
  defaultTTL : ℚ
deriving DecidableEq, Repr

/-- JS `Map.prototype.get`: first (unique) binding of the key. -/
def mapGet {β : Type} (k : String) : List (String × β) → Option β
  | [] => none
  | (k1, v) :: rest => if k1 = k then some v else mapGet k rest

/-- JS `Map.prototype.set`: replace the binding in place if the key is
present, else append. -/
def mapSet {β : Type} (k : String) (v : β) : List (String × β) → List (String × β)
  | [] => [(k, v)]
  | (k1, v1) :: rest =>
    if k1 = k then (k, v) :: rest else (k1, v1) :: mapSet k v rest

/-- JS `Map.prototype.delete`: remove the binding of the key. -/
def mapDelete {β : Type} (k : String) : List (String × β) → List (String × β)
  | [] => []
  | (k1, v1) :: rest =>
    if k1 = k then rest else (k1, v1) :: mapDelete k rest

/-- `CacheService.get` (`cache-service.ts` lines 24-35): miss on an
absent key; an expired entry is deleted lazily and reported as a miss;
otherwise the stored response is returned. Returns the (possibly
updated) state alongside the result. -/
def cacheGet (st : CacheState) (key : String) (now : ℚ) :
    Option LLMResponse × CacheState :=
  match mapGet key st.cache with
  | none => (none, st)
  | some entry =>
    if now > entry.expiresAt then
      (none, { st with cache := mapDelete key st.cache })
    else
      (some entry.response, st)

/-- Effective TTL of a write: `ttl || this.defaultTTL` (a JS falsy TTL,
i.e. an absent or zero one, falls back to the default). -/
def effectiveTTL (st : CacheState) (ttl : Option ℚ) : ℚ :=
  match ttl with
  | none => st.defaultTTL
  | some t => if t = 0 then st.defaultTTL else t

/-- `CacheService.set` (`cache-service.ts` lines 37-57): overwrite the
exact index unconditionally and, when an embedding is supplied, push a
new entry onto the semantic index (never replacing earlier ones). -/
def cacheSet (st : CacheState) (key : String) (prompt : String)
    (response : LLMResponse) (embedding : Option (List ℚ))
    (ttl : Option ℚ) (now : ℚ) : CacheState :=
  let expiresAt := now + effectiveTTL st ttl
  let entry : CacheEntry :=
    { prompt := prompt, response := response, embedding := embedding
      timestamp := now, expiresAt := expiresAt }
  let semTail : List SemEntry :=
    match embedding with
    | some emb =>
      [{ embedding := emb, response := response, timestamp := now, expiresAt := expiresAt }]
    | none => []
  { st with cache := mapSet key entry st.cache
            semanticCache := st.semanticCache ++ semTail }

/-- `CacheService.clearExpiredEntries` (`cache-service.ts` lines 74-86):
drop every entry of both indices whose `expiresAt` has passed. -/
def clearExpired (st : CacheState) (now : ℚ) : CacheState :=
  { st with
      cache := st.cache.filter (fun p => decide (now ≤ p.2.expiresAt))
      semanticCache := st.semanticCache.filter (fun e => decide (now ≤ e.expiresAt)) }

/-- The comparison `similarity >= threshold` of `findSemantically`, on
the possibly-NaN similarity value: a NaN always compares false in JS. -/
def simGE (s : Option ℚ) : Bool :=
  match s with
  | none => false
  | some q => decide ((0.8 : ℚ) ≤ q)

/-- The scan loop of `findSemantically`: first entry whose similarity
reaches the fixed threshold wins; a thrown similarity error (length
mismatch) propagates. -/
def findSemLoop (sqrtQ : ℚ → ℚ) (emb : List ℚ) :
    List SemEntry → Except String (Option LLMResponse)
  | [] => Except.ok none
  | e :: rest =>
    match calculateCosineSimilarity sqrtQ emb e.embedding with
    | Except.error msg => Except.error msg
    | Except.ok s =>
      if simGE s then Except.ok (some e.response) else findSemLoop sqrtQ emb rest

/-- `CacheService.findSemantically` (`cache-service.ts` lines 59-72):
clear expired entries, then scan the semantic index in insertion order
and return the response of the first entry whose cosine similarity to
the query is at least the hard-coded threshold 0.8. -/
def findSemantically (sqrtQ : ℚ → ℚ) (st : CacheState) (emb : List ℚ) (now : ℚ) :
    Except String (Option LLMResponse) × CacheState :=
  let st1 := clearExpired st now
  (findSemLoop sqrtQ emb st1.semanticCache, st1)

/-- ASCII lower-casing of one character, the effect of the `/i` regex
flag on the classifier's ASCII-only patterns. -/
def asciiLower (c : Char) : Char :=
  if 65 ≤ c.toNat ∧ c.toNat ≤ 90 then Char.ofNat (c.toNat + 32) else c

/-- The character list of a string, lower-cased for case-insensitive
matching. -/
def lowerChars (s : String) : List Char :=
  s.data.map asciiLower

/-- Substring test (`needle` occurs contiguously in `hay`), the meaning
of one literal alternative of a pattern matching the text. -/
def isSub (needle hay : List Char) : Bool :=
  match hay with
  | [] => needle.isEmpty
  | _ :: t => needle.isPrefixOf hay || isSub needle t

/-- One regex of the classifier is an alternation of literals; it tests
a text iff some alternative occurs in the lower-cased text. -/
def patTest (alts : List String) (low : List Char) : Bool :=
  alts.any (fun a => isSub a.data low)

/-- The SIMPLE tier's regexes (`task-classifier.ts` lines 7-11), as
lists of lower-cased literal alternatives. -/
def simplePats : List (List String) :=
  [ ["what is", "who is", "when", "where", "can you", "could you"],
    ["hello", "hi there", "good morning", "help me"],
    ["simple", "basic", "quick", "short"] ]

/-- The MODERATE tier's regexes (`task-classifier.ts` lines 12-16). -/
def moderatePats : List (List String) :=
  [ ["explain", "describe", "compare", "contrast", "summarize"],
    ["how to", "how do i", "steps to", "process of"],
    ["analyze the", "provide feedback", "what are the implications"] ]

/-- The COMPLEX tier's regexes (`task-classifier.ts` lines 17-23). -/
def complexPats : List (List String) :=
  [ ["design a", "create a comprehensive", "develop a strategy"],
    ["ethical implications", "philosophical", "theoretical", "conceptual"],
    ["critique", "evaluate the merits", "assess the validity"],
    ["research", "investigate", "deep dive"],
    ["complex", "complicated", "advanced", "sophisticated"] ]

/-- `TaskClassifier.complexityPatterns` (`task-classifier.ts` lines
6-29), in declaration order (`Object.entries` preserves it). -/
def complexityPatterns : List (TaskComplexity × List (List String)) :=
  [ (TaskComplexity.SIMPLE, simplePats),
    (TaskComplexity.MODERATE, moderatePats),
    (TaskComplexity.COMPLEX, complexPats) ]

/-- The nested pattern loop of `classifyTask`: first tier (in table
order) one of whose patterns tests the text. -/
def scanPatterns (low : List Char) :
    List (TaskComplexity × List (List String)) → Option TaskComplexity
  | [] => none
  | (t, pats) :: rest =>
    if pats.any (fun p => patTest p low) then some t else scanPatterns low rest

/-- Whitespace class of the `\s` used by `prompt.split(/\s+/)` (ASCII
part; the prompts at issue contain no exotic whitespace). -/
def isWs (c : Char) : Bool :=
  c = ' ' || c = '\t' || c = '\n' || c = '\r'

/-- Number of maximal whitespace runs, tracked with a
previous-character-was-whitespace flag. -/
def wsRunsAux (prevWs : Bool) : List Char → Nat
  | [] => 0
  | c :: rest =>
    if isWs c then (if prevWs then 0 else 1) + wsRunsAux true rest
    else wsRunsAux false rest

/-- `prompt.split(/\s+/).length`: one more than the number of maximal
whitespace runs (an empty string splits to `[""]`, count 1). -/
def wordCount (s : String) : Nat :=
  wsRunsAux false s.data + 1

/-- `TaskClassifier.classifyTask` (`task-classifier.ts` lines 31-52):
first tier whose pattern set matches, else the word-count fallback
(at most 50 words SIMPLE, at most 150 MODERATE, else COMPLEX). -/
def classifyTask (prompt : String) : TaskComplexity :=
  let wc := wordCount prompt
  match scanPatterns (lowerChars prompt) complexityPatterns with
  | some t => t
  | none =>
    if wc ≤ 50 then TaskComplexity.SIMPLE
    else if wc ≤ 150 then TaskComplexity.MODERATE
    else TaskComplexity.COMPLEX

/-- Claim-side reading of the tier rules: tier `t`'s pattern set (looked
up in the declaration table) has a pattern matching the text. -/
def tierMatches (t : TaskComplexity) (prompt : String) : Bool :=
  match complexityPatterns.find? (fun p => decide (p.1 = t)) with
  | some (_, pats) => pats.any (fun p => patTest p (lowerChars prompt))
  | none => false

/-- Claim-side classifier: the first tier, in the fixed order SIMPLE,
MODERATE, COMPLEX, whose pattern set matches; else the word-count
fallback. -/
def classifySpec (prompt : String) : TaskComplexity :=
  match [TaskComplexity.SIMPLE, TaskComplexity.MODERATE,
         TaskComplexity.COMPLEX].find? (fun t => tierMatches t prompt) with
  | some t => t
  | none =>
    if wordCount prompt ≤ 50 then TaskComplexity.SIMPLE
    else if wordCount prompt ≤ 150 then TaskComplexity.MODERATE
    else TaskComplexity.COMPLEX

/-- JS truthiness of an optional string option (`if (options.x)`): absent
or empty means falsy. -/
def strTruthy : Option String → Bool
  | none => false
  | some s => !(s = "")

/-- JS `a || d` on an optional string: the default replaces an absent or
empty value. -/
def orElseStr (o : Option String) (d : String) : String :=
  match o with
  | some s => if s = "" then d else s
  | none => d

/-- `m.capabilities[capability]` for a dynamic capability name: the rated
fields by name, `undefined` (here `none`) for any other key. -/
def capGet (c : ModelCapabilities) : String → Option ℚ
  | "speed" => some c.speed
  | "knowledge" => some c.knowledge
  | "reasoning" => some c.reasoning
  | "creativity" => some c.creativity
  | _ => none

/-- The cost filter's fixed unit-volume estimate
(`m.costPerInputToken * 1000 + m.costPerOutputToken * 1000`). -/
def cost1000 (m : ModelConfig) : ℚ :=
  m.costPerInputToken * 1000 + m.costPerOutputToken * 1000

/-- The per-attempt cost key of the cost-ascending strategy
(`costPerInputToken + costPerOutputToken`). -/
def costSum (m : ModelConfig) : ℚ :=
  m.costPerInputToken + m.costPerOutputToken

/-- The sequential `minCapability` loop of `selectModels`: one filter per
listed capability, in listed order; an unknown capability name reads
`undefined` and filters everything (JS `undefined >= v` is false). -/
def minCapFilter (mins : List (String × ℚ)) (ms : List ModelConfig) :
    List ModelConfig :=
  match mins with
  | [] => ms
  | (k, v) :: rest =>
    minCapFilter rest (ms.filter (fun m =>
      match capGet m.capabilities k with
      | some r => decide (v ≤ r)
      | none => false))

/-- The filter phase of `LLMRouter.selectModels` (`src/unnamed/part_002`
lines 124-151): preferred provider and model (JS-truthy guards), the
`minCapability` thresholds, and the cost bound — the latter guarded by
`if (options.maxCost)`, so a zero bound disables the filter. -/
def applyFilters (o : RequestOptions) (cfgs : List ModelConfig) :
    List ModelConfig :=
  let e1 :=
    match o.preferredProvider with
    | some pp => if pp = "" then cfgs else cfgs.filter (fun m => decide (m.provider = pp))
    | none => cfgs
  let e2 :=
    match o.preferredModel with
    | some pm => if pm = "" then e1 else e1.filter (fun m => decide (m.name = pm))
    | none => e1
  let e3 :=
    match o.minCapability with
    | some mins => minCapFilter mins e2
    | none => e2
  match o.maxCost with
  | some c => if c = 0 then e3 else e3.filter (fun m => decide (cost1000 m ≤ c))
  | none => e3

/-- The single capability rating the capability-descending strategy sorts
by, chosen from the complexity tier (`part_002` lines 168-181; the
`default` arm of the TS `switch` is unreachable, the enum being total). -/
def capKey (c : TaskComplexity) (caps : ModelCapabilities) : ℚ :=
  match c with
  | TaskComplexity.SIMPLE => caps.speed
  | TaskComplexity.MODERATE => caps.knowledge
  | TaskComplexity.COMPLEX => caps.reasoning

/-- Stable insertion of one element: it goes before the first element it
is strictly ahead of, hence after every equal one (the stable order
`Array.prototype.sort` guarantees for these comparators). -/
def insertStable (lt : ModelConfig → ModelConfig → Bool) (x : ModelConfig) :
    List ModelConfig → List ModelConfig
  | [] => [x]
  | y :: ys => if lt x y then x :: y :: ys else y :: insertStable lt x ys

/-- Stable sort by a strict precedence test, processing the input left to
right (so ties keep their original order). -/
def sortStable (lt : ModelConfig → ModelConfig → Bool)
    (l : List ModelConfig) : List ModelConfig :=
  l.foldl (fun acc x => insertStable lt x acc) []

/-- `modelKey.split(':')` destructured to `[provider, name]`: the name is
absent when the key has no colon (JS `undefined`), and text after a
second colon is dropped. -/
def splitColon : List Char → List (List Char)
  | [] => [[]]
  | c :: rest =>
    let r := splitColon rest
    if c = ':' then [] :: r
    else
      match r with
      | [] => [[c]]
      | h :: t => (c :: h) :: t

/-- The `[provider, name]` destructuring of a model key. -/
def splitKey (s : String) : String × Option String :=
  match splitColon s.data with
  | [] => ("", none)
  | [p] => (String.mk p, none)
  | p :: n :: _ => (String.mk p, some (String.mk n))

/-- The routing key of a config, `provider:name`. -/
def canonKey (m : ModelConfig) : String :=
  m.provider ++ ":" ++ m.name

/-- The `specific-models` collection loop (`part_002` lines 195-202):
walk the caller's list in order and keep, for each key, the first
eligible config whose provider and name match its two split parts. -/
def pickSpecific (eligible : List ModelConfig) :
    List String → List ModelConfig
  | [] => []
  | k :: rest =>
    let pr := splitKey k
    match eligible.find? (fun m =>
        decide (m.provider = pr.1) && decide (some m.name = pr.2)) with
    | some m => m :: pickSpecific eligible rest
    | none => pickSpecific eligible rest

/-- The configuration error thrown by the `specific-models` strategy with
no usable list. -/
def specificModelsErr : String :=
  "Fallback models must be specified when using specific-models strategy"

/-- The ordering phase of `LLMRouter.selectModels` (`part_002` lines
153-236): each strategy's comparator over the already-filtered eligible
set, the unset strategy falling back to the complexity-adaptive
comparators. -/
def orderStrategy (complexity : TaskComplexity) (o : RequestOptions)
    (eligible : List ModelConfig) : Except String (List ModelConfig) :=
  match o.fallbackStrategy with
  | some FallbackStrategy.costAscending =>
    Except.ok (sortStable (fun a b => decide (costSum a < costSum b)) eligible)
  | some FallbackStrategy.capabilityDescending =>
    Except.ok (sortStable (fun a b =>
      decide (capKey complexity b.capabilities < capKey complexity a.capabilities)) eligible)
  | some FallbackStrategy.specificModels =>
    match o.fallbackModels with
    | none => Except.error specificModelsErr
    | some fms =>
      if fms.isEmpty then Except.error specificModelsErr
      else Except.ok (pickSpecific eligible fms)
  | none =>
    match complexity with
    | TaskComplexity.SIMPLE =>
      Except.ok (sortStable (fun a b =>
        decide (2 * b.capabilities.speed + costSum b < 2 * a.capabilities.speed + costSum a)) eligible)
    | TaskComplexity.MODERATE =>
      Except.ok (sortStable (fun a b =>
        decide ((a.capabilities.knowledge + a.capabilities.reasoning) / 2 <
                (b.capabilities.knowledge + b.capabilities.reasoning) / 2)) eligible)
    | TaskComplexity.COMPLEX =>
      Except.ok (sortStable (fun a b =>
        decide (b.capabilities.reasoning < a.capabilities.reasoning)) eligible)

/-- `LLMRouter.selectModels` (`part_002` lines 123-240): filter, order
per strategy, and render the ordered configs as `provider:name` keys.
(The variant draft in `src/services/llm-router.ts` differs here: it
fails fast on an empty eligible set's caller, returns the
`specific-models` list verbatim without intersecting, and sorts
capability-descending by the sum of all ratings.) -/
def selectModels (complexity : TaskComplexity) (o : RequestOptions)
    (cfgs : List ModelConfig) : Except String (List String) :=
  let eligibleModels := applyFilters o cfgs
  match orderStrategy complexity o eligibleModels with
  | Except.error e => Except.error e
  | Except.ok ordered => Except.ok (ordered.map canonKey)

/-- The behaviour of one registered provider object at this request's
prompt: its completion and embedding calls either return a value or
throw (`LLMProvider.generateCompletion` / `generateEmbedding`). -/
structure ProviderBeh where
  completion : String → Except String LLMResponse
  embedding : String → Except String (List ℚ)

/-- The router's registration state (`LLMRouter`): the provider map keyed
by `provider:name`, the registered configs in registration order, and the
`useSemantic` constructor flag. -/
structure RouterState where
  providers : List (String × ProviderBeh)
  modelConfigs : List ModelConfig
  useSemantic : Bool

/-- Ambient inputs of one request: the `Math.sqrt` primitive, the md5
fingerprint function (`generateCacheKey`), and the clock. -/
structure RouterEnv where
  sqrtQ : ℚ → ℚ
  hash : String → String
  now : ℚ

/-- `LLMRouter.getProviderByName`: provider-map lookup of
`provider:model`. -/
def getProviderByName (router : RouterState) (provider model : String) :
    Option ProviderBeh :=
  mapGet (provider ++ ":" ++ model) router.providers

/-- The cache phase of `LLMRouter.processPrompt` (`part_002` lines
39-72): unless caching is disabled, try the exact index, then — when
semantic caching is on and the designated embedding provider (preferred
one, else `openai:text-embedding-3-small`) is registered — embed the
prompt and scan the semantic index; any thrown error in the semantic
block is swallowed. Returns the hit, if any, with the updated cache
state (lazy evictions persist even when the scan then fails). -/
def cachePhase (env : RouterEnv) (router : RouterState) (st : CacheState)
    (prompt : String) (o : RequestOptions) : Option LLMResponse × CacheState :=
  if o.cacheResults = some false then (none, st)
  else
    match cacheGet st (env.hash prompt) env.now with
    | (some r, st1) => (some r, st1)
    | (none, st1) =>
      if router.useSemantic then
        match getProviderByName router (orElseStr o.preferredProvider "openai")
            (orElseStr o.preferredModel "text-embedding-3-small") with
        | none => (none, st1)
        | some p =>
          match p.embedding prompt with
          | Except.error _ => (none, st1)
          | Except.ok emb =>
            match findSemantically env.sqrtQ st1 emb env.now with
            | (Except.error _, st2) => (none, st2)
            | (Except.ok r1, st2) => (r1, st2)
      else (none, st1)

/-- The provider-map key looked up for one candidate: JS interpolates a
missing second split component as the string `undefined`. -/
def candidateLookupKey (modelKey : String) : String :=
  let pr := splitKey modelKey
  pr.1 ++ ":" ++ (match pr.2 with | some n => n | none => "undefined")

/-- The fallback loop of `LLMRouter.processPrompt` (`part_002` lines
81-117): walk the ordered keys; skip unregistered ones; on the first
successful completion, cache the response (with a best-effort embedding
when semantic caching is on) unless caching is disabled, and return it;
when the keys run out, throw the terminal all-candidates-failed error. -/
def tryModels (env : RouterEnv) (router : RouterState) (st : CacheState)
    (prompt : String) (o : RequestOptions) :
    List String → Except String LLMResponse × CacheState
  | [] => (Except.error "All models failed to generate a response", st)
  | modelKey :: rest =>
    match mapGet (candidateLookupKey modelKey) router.providers with
    | none => tryModels env router st prompt o rest
    | some p =>
      match p.completion prompt with
      | Except.error _ => tryModels env router st prompt o rest
      | Except.ok resp =>
        if o.cacheResults = some false then (Except.ok resp, st)
        else
          let emb :=
            if router.useSemantic then
              match p.embedding prompt with
              | Except.ok e => some e
              | Except.error _ => none
            else none
          (Except.ok resp, cacheSet st (env.hash prompt) prompt resp emb none env.now)

/-- `LLMRouter.processPrompt` (`part_002` lines 35-117): cache phase,
then classification, then selection, then the fallback loop. A selection
error (the `specific-models` configuration error) propagates to the
caller. -/
def processPrompt (env : RouterEnv) (router : RouterState) (st : CacheState)
    (prompt : String) (o : RequestOptions) :
    Except String LLMResponse × CacheState :=
  match cachePhase env router st prompt o with
  | (some r, st1) => (Except.ok r, st1)
  | (none, st1) =>
    let complexity := classifyTask prompt
    match selectModels complexity o router.modelConfigs with
    | Except.error e => (Except.error e, st1)
    | Except.ok keys => tryModels env router st1 prompt o keys

lemma tierMatches_SIMPLE (p : String) :
    tierMatches TaskComplexity.SIMPLE p
      = simplePats.any (fun pt => patTest pt (lowerChars p)) := by
  simp [tierMatches, complexityPatterns, List.find?]

lemma tierMatches_MODERATE (p : String) :
    tierMatches TaskComplexity.MODERATE p
      = moderatePats.any (fun pt => patTest pt (lowerChars p)) := by
  simp [tierMatches, complexityPatterns, List.find?]

lemma tierMatches_COMPLEX (p : String) :
    tierMatches TaskComplexity.COMPLEX p
      = complexPats.any (fun pt => patTest pt (lowerChars p)) := by
  simp [tierMatches, complexityPatterns, List.find?]

/-- Claim C8 (confirmed): `classifyTask` is total and returns the first
tier, taking the tiers in the fixed order SIMPLE, MODERATE, COMPLEX (the
table's declaration order), whose pattern set matches the text; when no
pattern of any tier matches it falls back to the word count, SIMPLE up
to 50 words, MODERATE up to 150, COMPLEX above; the empty string is
classified SIMPLE. -/
theorem classifyTask_first_match_contract :
    (∀ p : String, classifyTask p = classifySpec p) ∧
    classifyTask "" = TaskComplexity.SIMPLE := by
  constructor
  · intro p
    cases hS : simplePats.any (fun pt => patTest pt (lowerChars p)) <;>
    cases hM : moderatePats.any (fun pt => patTest pt (lowerChars p)) <;>
    cases hX : complexPats.any (fun pt => patTest pt (lowerChars p)) <;>
    simp [classifyTask, classifySpec, scanPatterns, complexityPatterns,
      List.find?, tierMatches_SIMPLE, tierMatches_MODERATE,
      tierMatches_COMPLEX, hS, hM, hX]
  · decide

lemma natRoot_zero : natRoot 0 = 0 := by decide

lemma natRoot_one : natRoot 1 = 1 := by decide

lemma natRoot_25 : natRoot 25 = 5 := by decide

lemma ratSqrt_zero : ratSqrt 0 = 0 := by
  have h1 : ((0 : ℚ)).num = 0 := rfl
  have h2 : ((0 : ℚ)).den = 1 := rfl
  simp [ratSqrt, h1, h2, natRoot_zero, natRoot_one]

lemma ratSqrt_one : ratSqrt 1 = 1 := by
  have h1 : ((1 : ℚ)).num = 1 := rfl
  have h2 : ((1 : ℚ)).den = 1 := rfl
  simp [ratSqrt, h1, h2, natRoot_one]

lemma ratSqrt_25 : ratSqrt 25 = 5 := by
  have h1 : ((25 : ℚ)).num = 25 := rfl
  have h2 : ((25 : ℚ)).den = 1 := rfl
  simp [ratSqrt, h1, h2, natRoot_25, natRoot_one]

/-- Claim C5 (corrected): for equal-length vectors both similarity
functions compute the dot product over the product of the norms, and
both raise their dimension-mismatch error on unequal lengths; but only
the standalone `cosineSimilarity` of `vector-utils` returns 0 on a
zero-norm vector — the cache's own `calculateCosineSimilarity` divides
unguarded, and a zero norm makes it produce NaN (no finite value,
`Except.ok none` here) rather than 0. -/
theorem cosine_similarity_contract :
    (∀ (sqrtQ : ℚ → ℚ) (a b : List ℚ), a.length ≠ b.length →
        cosineSimilarity sqrtQ a b
          = Except.error "Vectors must have the same dimensions" ∧
        calculateCosineSimilarity sqrtQ a b
          = Except.error "Vectors must be of the same length") ∧
    (∀ (sqrtQ : ℚ → ℚ) (a b : List ℚ), a.length = b.length → sqrtQ 0 = 0 →
        (sumsq a = 0 ∨ sumsq b = 0) →
        cosineSimilarity sqrtQ a b = Except.ok 0 ∧
        calculateCosineSimilarity sqrtQ a b = Except.ok none) ∧
    (∀ (sqrtQ : ℚ → ℚ) (a b : List ℚ), a.length = b.length →
        sqrtQ (sumsq a) * sqrtQ (sumsq b) ≠ 0 →
        cosineSimilarity sqrtQ a b
          = Except.ok (dotQ a b / (sqrtQ (sumsq a) * sqrtQ (sumsq b))) ∧
        calculateCosineSimilarity sqrtQ a b
          = Except.ok (some (dotQ a b / (sqrtQ (sumsq a) * sqrtQ (sumsq b))))) := by
  refine ⟨fun sqrtQ a b h => ?_, fun sqrtQ a b hlen h0 hz => ?_,
    fun sqrtQ a b hlen hnz => ?_⟩
  · constructor <;> simp [cosineSimilarity, calculateCosineSimilarity, h]
  · rcases hz with hz | hz <;>
      simp [cosineSimilarity, calculateCosineSimilarity, hlen, hz, h0, jsDiv]
  · have hA : ¬ (sqrtQ (sumsq a) = 0 ∨ sqrtQ (sumsq b) = 0) := by
      rcases mul_ne_zero_iff.mp hnz with ⟨h1, h2⟩
      simp [h1, h2]
    constructor <;>
      simp [cosineSimilarity, calculateCosineSimilarity, hlen, hA, hnz, jsDiv]

lemma sumsq_single_zero : sumsq [(0 : ℚ)] = 0 := by norm_num [sumsq]

lemma sumsq_single_one : sumsq [(1 : ℚ)] = 1 := by norm_num [sumsq]

/-- Counterexample to claim C5 as stated: the similarity function the
cache actually uses does divide by zero on a zero-norm input — at
`vec1 = [0]`, `vec2 = [1]` it computes `0 / 0` (NaN, i.e. no finite
value), not the claimed 0. -/
theorem calculateCosineSimilarity_zero_norm_nan :
    calculateCosineSimilarity ratSqrt [(0 : ℚ)] [(1 : ℚ)] = Except.ok none ∧
    (Except.ok (none : Option ℚ) : Except String (Option ℚ))
      ≠ Except.ok (some (0 : ℚ)) := by
  constructor
  · simp [calculateCosineSimilarity, sumsq_single_zero, sumsq_single_one,
      ratSqrt_zero, ratSqrt_one, jsDiv]
  · simp

lemma sumsq_34 : sumsq [(3 : ℚ), 4] = 25 := by norm_num [sumsq]

lemma sumsq_43 : sumsq [(4 : ℚ), 3] = 25 := by norm_num [sumsq]

lemma sumsq_00 : sumsq [(0 : ℚ), 0] = 0 := by norm_num [sumsq]

/-- Witness for the amended C5 contract at concrete inputs: a length
mismatch errors, a zero-norm pair yields 0 from the guarded function,
and a nonzero pair yields the cosine 24/25. -/
theorem cosine_similarity_contract_witness :
    cosineSimilarity ratSqrt [(1 : ℚ)] [(1 : ℚ), 0]
      = Except.error "Vectors must have the same dimensions" ∧
    cosineSimilarity ratSqrt [(0 : ℚ), 0] [(3 : ℚ), 4] = Except.ok 0 ∧
    calculateCosineSimilarity ratSqrt [(3 : ℚ), 4] [(4 : ℚ), 3]
      = Except.ok (some ((24 : ℚ) / 25)) := by
  refine ⟨(cosine_similarity_contract.1 ratSqrt [(1 : ℚ)] [(1 : ℚ), 0] (by decide)).1,
    (cosine_similarity_contract.2.1 ratSqrt [(0 : ℚ), 0] [(3 : ℚ), 4] (by decide)
      ratSqrt_zero (Or.inl sumsq_00)).1, ?_⟩
  have h := (cosine_similarity_contract.2.2 ratSqrt [(3 : ℚ), 4] [(4 : ℚ), 3]
    (by decide) (by rw [sumsq_34, sumsq_43, ratSqrt_25]; norm_num)).2
  rw [h, sumsq_34, sumsq_43, ratSqrt_25]
  norm_num [dotQ]

lemma mapGet_mapSet {β : Type} (k : String) (v : β) (l : List (String × β)) :
    mapGet k (mapSet k v l) = some v := by
  induction l with
  | nil => simp [mapGet, mapSet]
  | cons hd tl ih =>
    by_cases h : hd.1 = k <;> simp [mapGet, mapSet, h, ih]

lemma effectiveTTL_pos (st : CacheState) (ttl : Option ℚ)
    (hd : 0 < st.defaultTTL) (ht : ∀ t, ttl = some t → 0 ≤ t) :
    0 < effectiveTTL st ttl := by
  cases ttl with
  | none => simpa [effectiveTTL] using hd
  | some t =>
    have h0 := ht t rfl
    by_cases hz : t = 0
    · simpa [effectiveTTL, hz] using hd
    · simp only [effectiveTTL, if_neg hz]
      exact lt_of_le_of_ne h0 (fun h => hz h.symm)

/-- Claim C6 (confirmed): a `set` immediately followed by a `get` of the
same fingerprint returns the just-written response (the write replaces
any earlier exact-index binding of that key), provided the effective TTL
is positive (the default is, and a supplied TTL is non-negative); and a
`get` of an entry whose `expiresAt` has passed reports a miss and
removes that binding from the exact index. -/
theorem cache_put_get_contract :
    (∀ (st : CacheState) (key prompt : String) (r : LLMResponse)
        (emb : Option (List ℚ)) (ttl : Option ℚ) (now : ℚ),
        0 < st.defaultTTL → (∀ t, ttl = some t → 0 ≤ t) →
        (cacheGet (cacheSet st key prompt r emb ttl now) key now).1 = some r) ∧
    (∀ (st : CacheState) (key : String) (e : CacheEntry) (now : ℚ),
        mapGet key st.cache = some e → e.expiresAt < now →
        cacheGet st key now
          = (none, { st with cache := mapDelete key st.cache })) := by
  constructor
  · intro st key prompt r emb ttl now hd ht
    have hpos := effectiveTTL_pos st ttl hd ht
    have hlt : ¬ now > now + effectiveTTL st ttl := by linarith
    simp [cacheGet, cacheSet, mapGet_mapSet, hlt]
  · intro st key e now hget hexp
    have hgt : now > e.expiresAt := hexp
    simp [cacheGet, hget, hgt]

/-- An expired exact-index entry used by concrete runs (already past its
`expiresAt` at time 0). -/
def expiredEntry : CacheEntry :=
  { prompt := "p", response := ⟨"stale", "m", "prov"⟩, embedding := none
    timestamp := -10, expiresAt := -1 }

/-- Witness for C6 at concrete inputs: a fresh write to an empty cache is
read back at once, and a `get` of an expired binding misses and deletes
it. -/
theorem cache_put_get_contract_witness :
    (cacheGet (cacheSet ⟨[], [], 86400000⟩ "k" "p" ⟨"ans", "m", "prov"⟩ none none 0)
        "k" 0).1 = some ⟨"ans", "m", "prov"⟩ ∧
    cacheGet ⟨[("k", expiredEntry)], [], 86400000⟩ "k" 0
      = (none, ⟨mapDelete "k" [("k", expiredEntry)], [], 86400000⟩) := by
  constructor
  · exact cache_put_get_contract.1 ⟨[], [], 86400000⟩ "k" "p" ⟨"ans", "m", "prov"⟩
      none none 0 (by norm_num) (fun t h => by cases h)
  · exact cache_put_get_contract.2 ⟨[("k", expiredEntry)], [], 86400000⟩ "k"
      expiredEntry 0 (by simp [mapGet]) (by norm_num [expiredEntry])

/-- A first cached response used by concrete runs. -/
def rOld : LLMResponse := ⟨"first answer", "m1", "prov"⟩

/-- A second, different cached response used by concrete runs. -/
def rNew : LLMResponse := ⟨"second answer", "m2", "prov"⟩

lemma cos_34_43 :
    calculateCosineSimilarity ratSqrt [(3 : ℚ), 4] [(4 : ℚ), 3]
      = Except.ok (some ((24 : ℚ) / 25)) := by
  simp [calculateCosineSimilarity, sumsq_34, sumsq_43, ratSqrt_25, jsDiv, dotQ]
  norm_num

lemma cos_34_34 :
    calculateCosineSimilarity ratSqrt [(3 : ℚ), 4] [(3 : ℚ), 4]
      = Except.ok (some 1) := by
  simp [calculateCosineSimilarity, sumsq_34, ratSqrt_25, jsDiv, dotQ]
  norm_num

lemma sumsq_unit_10 : sumsq [(1 : ℚ), 0] = 1 := by norm_num [sumsq]

lemma cos_10_43 :
    calculateCosineSimilarity ratSqrt [(1 : ℚ), 0] [(4 : ℚ), 3]
      = Except.ok (some ((4 : ℚ) / 5)) := by
  simp [calculateCosineSimilarity, sumsq_unit_10, sumsq_43, ratSqrt_one,
    ratSqrt_25, jsDiv, dotQ]

lemma simGE_2425 : simGE (some ((24 : ℚ) / 25)) = true := by
  norm_num [simGE]

lemma simGE_one : simGE (some (1 : ℚ)) = true := by
  norm_num [simGE]

lemma simGE_45 : simGE (some ((4 : ℚ) / 5)) = true := by
  norm_num [simGE]

/-- Claim C10 (confirmed): writing the same fingerprint twice with
embeddings overwrites the exact-index binding (the later response is the
one indexed) while the semantic index receives both entries, the earlier
one never removed or superseded; concretely, with both writes carrying
the embedding `[3,4]`, a semantic lookup for `[3,4]` still returns the
first, overwritten response rather than the second. -/
theorem cacheSet_overwrite_appends_semantic :
    (∀ (st : CacheState) (key p1 p2 : String) (r1 r2 : LLMResponse)
        (e1 e2 : List ℚ) (t1 t2 : Option ℚ) (n1 n2 : ℚ),
        (mapGet key
            (cacheSet (cacheSet st key p1 r1 (some e1) t1 n1)
              key p2 r2 (some e2) t2 n2).cache).map CacheEntry.response
          = some r2 ∧
        (cacheSet (cacheSet st key p1 r1 (some e1) t1 n1)
            key p2 r2 (some e2) t2 n2).semanticCache
          = st.semanticCache
              ++ [⟨e1, r1, n1, n1 + effectiveTTL st t1⟩,
                  ⟨e2, r2, n2, n2 + effectiveTTL st t2⟩]) ∧
    (findSemantically ratSqrt
        (cacheSet (cacheSet ⟨[], [], 86400000⟩ "k" "p" rOld (some [3, 4]) none 0)
          "k" "p" rNew (some [3, 4]) none 0) [(3 : ℚ), 4] 0).1
      = Except.ok (some rOld) ∧
    rOld ≠ rNew := by
  refine ⟨fun st key p1 p2 r1 r2 e1 e2 t1 t2 n1 n2 => ⟨?_, ?_⟩, ?_, ?_⟩
  · simp [cacheSet, mapGet_mapSet]
  · simp [cacheSet, effectiveTTL]
  · have hs : (cacheSet (cacheSet ⟨[], [], 86400000⟩ "k" "p" rOld (some [3, 4]) none 0)
        "k" "p" rNew (some [3, 4]) none 0).semanticCache
        = [⟨[3, 4], rOld, 0, 86400000⟩, ⟨[3, 4], rNew, 0, 86400000⟩] := by
      simp [cacheSet, effectiveTTL]
    have hclear : clearExpired (cacheSet
        (cacheSet ⟨[], [], 86400000⟩ "k" "p" rOld (some [3, 4]) none 0)
        "k" "p" rNew (some [3, 4]) none 0) 0
        = cacheSet (cacheSet ⟨[], [], 86400000⟩ "k" "p" rOld (some [3, 4]) none 0)
            "k" "p" rNew (some [3, 4]) none 0 := by
      simp [clearExpired, cacheSet, effectiveTTL, mapSet]
    simp [findSemantically, hclear, hs, findSemLoop, cos_34_34, simGE_one]
  · simp [rOld, rNew]

/-- The hit test the scan applies to one retained entry: its similarity
to the query compares at least 0.8 (false on a thrown or NaN value —
used to phrase the loop as a first-match search). -/
def entryHit (sqrtQ : ℚ → ℚ) (emb : List ℚ) (e : SemEntry) : Bool :=
  match calculateCosineSimilarity sqrtQ emb e.embedding with
  | Except.error _ => false
  | Except.ok s => simGE s

lemma findSemLoop_eq_find (sqrtQ : ℚ → ℚ) (emb : List ℚ) (l : List SemEntry)
    (h : ∀ e ∈ l, e.embedding.length = emb.length) :
    findSemLoop sqrtQ emb l
      = Except.ok ((l.find? (entryHit sqrtQ emb)).map SemEntry.response) := by
  induction l with
  | nil => simp [findSemLoop, List.find?]
  | cons e rest ih =>
    have he : e.embedding.length = emb.length := h e (by simp)
    have hrest := ih (fun x hx => h x (by simp [hx]))
    have hne : ¬ emb.length ≠ e.embedding.length := by simp [he]
    have hok : calculateCosineSimilarity sqrtQ emb e.embedding
        = Except.ok (jsDiv (dotQ emb e.embedding)
            (sqrtQ (sumsq emb) * sqrtQ (sumsq e.embedding))) := by
      simp [calculateCosineSimilarity, hne]
    cases hg : simGE (jsDiv (dotQ emb e.embedding)
        (sqrtQ (sumsq emb) * sqrtQ (sumsq e.embedding))) <;>
      simp [findSemLoop, List.find?, entryHit, hok, hg, hrest]

/-- Claim C1 (amended, proved): when every retained entry's embedding has
the query's dimension, `findSemantically` clears the expired entries and
then returns the response of the FIRST remaining entry, in insertion
order, whose cosine similarity to the query is at least the fixed
threshold 0.8 — absent when no entry reaches it (not the
highest-similarity entry, and the threshold comparison is non-strict). -/
theorem findSemantically_first_at_threshold
    (sqrtQ : ℚ → ℚ) (st : CacheState) (emb : List ℚ) (now : ℚ)
    (h : ∀ e ∈ (clearExpired st now).semanticCache,
        e.embedding.length = emb.length) :
    findSemantically sqrtQ st emb now
      = (Except.ok (((clearExpired st now).semanticCache.find?
            (entryHit sqrtQ emb)).map SemEntry.response),
         clearExpired st now) := by
  simp [findSemantically, findSemLoop_eq_find sqrtQ emb _ h]

/-- The lookup claim C1 describes: among the unexpired entries, the one
of highest similarity strictly above the threshold, the earliest
inserted winning ties (a later equal score never replaces the held
maximum). -/
def bestLoop (sqrtQ : ℚ → ℚ) (emb : List ℚ) (threshold : ℚ) :
    List SemEntry → Option (ℚ × LLMResponse) → Except String (Option LLMResponse)
  | [], best => Except.ok (best.map Prod.snd)
  | e :: rest, best =>
    match calculateCosineSimilarity sqrtQ emb e.embedding with
    | Except.error m => Except.error m
    | Except.ok none => bestLoop sqrtQ emb threshold rest best
    | Except.ok (some s) =>
      match best with
      | none =>
        bestLoop sqrtQ emb threshold rest
          (if threshold < s then some (s, e.response) else none)
      | some (bs, br) =>
        bestLoop sqrtQ emb threshold rest
          (if bs < s then some (s, e.response) else some (bs, br))

/-- The semantic lookup as claim C1 states it (argmax above a strict
threshold over the unexpired entries). -/
def findSimilarClaim (sqrtQ : ℚ → ℚ) (st : CacheState) (emb : List ℚ)
    (now threshold : ℚ) : Except String (Option LLMResponse) :=
  bestLoop sqrtQ emb threshold (clearExpired st now).semanticCache none

/-- A semantic index holding a 0.96-similar entry (for query `[3,4]`)
before a 1.0-similar one, both unexpired at time 0. -/
def stC1 : CacheState :=
  ⟨[], [⟨[4, 3], rOld, 0, 1000⟩, ⟨[3, 4], rNew, 0, 1000⟩], 86400000⟩

/-- A semantic index holding a single entry of similarity exactly 0.8
for the query `[1,0]`, unexpired at time 0. -/
def stC2 : CacheState :=
  ⟨[], [⟨[4, 3], rOld, 0, 1000⟩], 86400000⟩

lemma clearExpired_stC1 : clearExpired stC1 0 = stC1 := by
  simp [clearExpired, stC1]

lemma clearExpired_stC2 : clearExpired stC2 0 = stC2 := by
  simp [clearExpired, stC2]

/-- Counterexample to claim C1 as stated: on `stC1` the scan returns the
first entry at 0.96 similarity, not the maximal 1.0 entry the claim
predicts; and on `stC2`, whose single entry sits exactly at the
threshold, the scan hits (the comparison is non-strict) while the
claimed strict-threshold lookup reports absent. -/
theorem findSemantically_not_best_match :
    (findSemantically ratSqrt stC1 [(3 : ℚ), 4] 0).1 = Except.ok (some rOld) ∧
    findSimilarClaim ratSqrt stC1 [(3 : ℚ), 4] 0 (0.8 : ℚ)
      = Except.ok (some rNew) ∧
    (findSemantically ratSqrt stC2 [(1 : ℚ), 0] 0).1 = Except.ok (some rOld) ∧
    findSimilarClaim ratSqrt stC2 [(1 : ℚ), 0] 0 (0.8 : ℚ) = Except.ok none ∧
    rOld ≠ rNew := by
  refine ⟨?_, ?_, ?_, ?_, by simp [rOld, rNew]⟩
  · simp [findSemantically, clearExpired_stC1, stC1, findSemLoop,
      cos_34_43, simGE_2425]
  · have h1 : ((0.8 : ℚ) < 24 / 25) := by norm_num
    have h2 : ((24 : ℚ) / 25 < 1) := by norm_num
    simp [findSimilarClaim, clearExpired_stC1, stC1, bestLoop,
      cos_34_43, cos_34_34, h1, h2]
  · simp [findSemantically, clearExpired_stC2, stC2, findSemLoop,
      cos_10_43, simGE_45]
  · have h1 : ¬ ((0.8 : ℚ) < 4 / 5) := by norm_num
    simp [findSimilarClaim, clearExpired_stC2, stC2, bestLoop,
      cos_10_43, h1]

/-- Witness for the amended C1 at a concrete state: on `stC1` (all
embeddings of the query's dimension) the scan is exactly the first-entry
search, which here yields the earlier 0.96 entry's response. -/
theorem findSemantically_first_at_threshold_witness :
    (∀ e ∈ (clearExpired stC1 0).semanticCache,
        e.embedding.length = ([(3 : ℚ), 4]).length) ∧
    findSemantically ratSqrt stC1 [(3 : ℚ), 4] 0
      = (Except.ok (some rOld), stC1) := by
  have hlen : ∀ e ∈ (clearExpired stC1 0).semanticCache,
      e.embedding.length = ([(3 : ℚ), 4]).length := by
    rw [clearExpired_stC1]
    intro e he
    simp only [stC1, List.mem_cons, List.not_mem_nil, or_false] at he
    rcases he with rfl | rfl <;> rfl
  refine ⟨hlen, ?_⟩
  rw [findSemantically_first_at_threshold ratSqrt stC1 [(3 : ℚ), 4] 0 hlen,
    clearExpired_stC1]
  simp [stC1, List.find?, entryHit, cos_34_43, simGE_2425]

lemma insertStable_perm (lt : ModelConfig → ModelConfig → Bool)
    (x : ModelConfig) (l : List ModelConfig) :
    (insertStable lt x l).Perm (x :: l) := by
  induction l with
  | nil => simp [insertStable]
  | cons y ys ih =>
    by_cases h : lt x y
    · simp [insertStable, h]
    · simp only [insertStable, h, if_neg]
      exact ((ih.cons y).trans (List.Perm.swap x y ys)).symm.symm

lemma foldl_insert_perm (lt : ModelConfig → ModelConfig → Bool) :
    ∀ (l acc : List ModelConfig),
      (List.foldl (fun acc x => insertStable lt x acc) acc l).Perm (acc ++ l) := by
  intro l
  induction l with
  | nil => simp
  | cons x xs ih =>
    intro acc
    have h1 := ih (insertStable lt x acc)
    have h2 : (insertStable lt x acc ++ xs).Perm ((x :: acc) ++ xs) :=
      (insertStable_perm lt x acc).append_right xs
    have h3 : ((x :: acc) ++ xs).Perm (acc ++ x :: xs) := List.perm_middle.symm
    simpa using (h1.trans h2).trans h3

lemma sortStable_perm (lt : ModelConfig → ModelConfig → Bool)
    (l : List ModelConfig) : (sortStable lt l).Perm l := by
  simpa [sortStable] using foldl_insert_perm lt l []

lemma insertStable_pairwise_key (key : ModelConfig → ℚ) (x : ModelConfig) :
    ∀ l : List ModelConfig,
      l.Pairwise (fun a b => key b ≤ key a) →
      (insertStable (fun a b => decide (key b < key a)) x l).Pairwise
        (fun a b => key b ≤ key a) := by
  intro l
  induction l with
  | nil => intro _; simp [insertStable]
  | cons y ys ih =>
    intro h
    rw [List.pairwise_cons] at h
    obtain ⟨hy, hys⟩ := h
    by_cases hlt : key y < key x
    · simp only [insertStable, decide_eq_true hlt, if_pos]
      refine List.Pairwise.cons ?_ (List.Pairwise.cons hy hys)
      intro z hz
      rcases List.mem_cons.mp hz with rfl | hz2
      · exact hlt.le
      · exact (hy z hz2).trans hlt.le
    · simp only [insertStable, decide_eq_false hlt, Bool.false_eq_true,
        if_neg, not_false_iff]
      refine List.Pairwise.cons ?_ (ih hys)
      intro z hz
      have hz2 : z ∈ x :: ys :=
        (insertStable_perm (fun a b => decide (key b < key a)) x ys).mem_iff.mp hz
      rcases List.mem_cons.mp hz2 with rfl | hz3
      · exact le_of_not_lt hlt
      · exact hy z hz3

lemma foldl_insert_pairwise_key (key : ModelConfig → ℚ) :
    ∀ (l acc : List ModelConfig),
      acc.Pairwise (fun a b => key b ≤ key a) →
      (List.foldl (fun acc x =>
          insertStable (fun a b => decide (key b < key a)) x acc) acc l).Pairwise
        (fun a b => key b ≤ key a) := by
  intro l
  induction l with
  | nil => intro acc h; simpa using h
  | cons x xs ih =>
    intro acc h
    exact ih (insertStable (fun a b => decide (key b < key a)) x acc)
      (insertStable_pairwise_key key x acc h)

lemma sortStable_pairwise_key (key : ModelConfig → ℚ) (l : List ModelConfig) :
    (sortStable (fun a b => decide (key b < key a)) l).Pairwise
      (fun a b => key b ≤ key a) := by
  simpa [sortStable] using
    foldl_insert_pairwise_key key l [] (by simp)

/-- Claim C4 (confirmed): under the capability-descending strategy the
ordered candidate list is a permutation of the eligible set sorted in
descending order of the single rating the tier selects — speed for
SIMPLE, knowledge for MODERATE, reasoning for COMPLEX. -/
theorem orderStrategy_capability_descending_sorted
    (c : TaskComplexity) (o : RequestOptions) (eligible : List ModelConfig)
    (hs : o.fallbackStrategy = some FallbackStrategy.capabilityDescending) :
    ∃ l, orderStrategy c o eligible = Except.ok l ∧
      l.Perm eligible ∧
      l.Pairwise (fun a b => capKey c b.capabilities ≤ capKey c a.capabilities) := by
  refine ⟨sortStable (fun a b =>
      decide (capKey c b.capabilities < capKey c a.capabilities)) eligible,
    by simp [orderStrategy, hs], ?_, ?_⟩
  · exact sortStable_perm _ eligible
  · exact sortStable_pairwise_key (fun m => capKey c m.capabilities) eligible

/-- A slow, highly-reasoning model used by concrete selection runs. -/
def cfgSlow : ModelConfig := ⟨"slow", "p", ⟨1, 9, 9, 9⟩, 1, 1⟩

/-- A fast, lightly-rated model used by concrete selection runs. -/
def cfgFast : ModelConfig := ⟨"fast", "p", ⟨5, 2, 2, 2⟩, 1, 1⟩

/-- The options selecting the capability-descending strategy and nothing
else. -/
def optsCapDesc : RequestOptions :=
  { fallbackStrategy := some FallbackStrategy.capabilityDescending }

/-- Witness for C4 at a concrete input: for the SIMPLE tier (speed key)
the two models come out fastest first, a permutation of the input in
descending speed order. -/
theorem orderStrategy_capability_descending_sorted_witness :
    (∃ l, orderStrategy TaskComplexity.SIMPLE optsCapDesc [cfgSlow, cfgFast]
        = Except.ok l ∧
      l.Perm [cfgSlow, cfgFast] ∧
      l.Pairwise (fun a b =>
        capKey TaskComplexity.SIMPLE b.capabilities
          ≤ capKey TaskComplexity.SIMPLE a.capabilities)) ∧
    orderStrategy TaskComplexity.SIMPLE optsCapDesc [cfgSlow, cfgFast]
      = Except.ok [cfgFast, cfgSlow] := by
  constructor
  · exact orderStrategy_capability_descending_sorted TaskComplexity.SIMPLE
      optsCapDesc [cfgSlow, cfgFast] rfl
  · have h15 : ((1 : ℚ) < 5) := by norm_num
    simp [orderStrategy, optsCapDesc, sortStable, insertStable, capKey,
      cfgSlow, cfgFast, h15]

/-- The candidate keys the (amended) C2 predicts for the
`specific-models` strategy: the caller's list, in the caller's order,
restricted to keys whose split parts match some model of the filtered
eligible set, rendered as that model's routing key. -/
def specificEligibleKeys (o : RequestOptions) (cfgs : List ModelConfig)
    (fms : List String) : List String :=
  fms.filterMap (fun k =>
    ((applyFilters o cfgs).find? (fun m =>
        decide (m.provider = (splitKey k).1)
          && decide (some m.name = (splitKey k).2))).map canonKey)

lemma pickSpecific_map_canon (eligible : List ModelConfig) :
    ∀ fms : List String,
      (pickSpecific eligible fms).map canonKey
        = fms.filterMap (fun k =>
            (eligible.find? (fun m =>
                decide (m.provider = (splitKey k).1)
                  && decide (some m.name = (splitKey k).2))).map canonKey) := by
  intro fms
  induction fms with
  | nil => simp [pickSpecific]
  | cons k rest ih =>
    cases hf : eligible.find? (fun m =>
        decide (m.provider = (splitKey k).1)
          && decide (some m.name = (splitKey k).2)) with
    | none => simp [pickSpecific, hf, ih]
    | some m => simp [pickSpecific, hf, ih]

/-- Claim C2 (amended, proved): under the `specific-models` strategy with
a non-empty list, the candidate list is exactly the caller's list, in
the caller's order, restricted to the ELIGIBLE models (registered and
surviving the option filters — not merely registered, as the claim
stated); and with an absent or empty list, selection throws the
configuration error before any candidate is attempted. -/
theorem selectModels_specific_contract :
    (∀ (c : TaskComplexity) (o : RequestOptions) (cfgs : List ModelConfig)
        (fms : List String),
        o.fallbackStrategy = some FallbackStrategy.specificModels →
        o.fallbackModels = some fms → fms ≠ [] →
        selectModels c o cfgs = Except.ok (specificEligibleKeys o cfgs fms)) ∧
    (∀ (c : TaskComplexity) (o : RequestOptions) (cfgs : List ModelConfig),
        o.fallbackStrategy = some FallbackStrategy.specificModels →
        (o.fallbackModels = none ∨ o.fallbackModels = some []) →
        selectModels c o cfgs = Except.error specificModelsErr) := by
  constructor
  · intro c o cfgs fms hs hm hne
    have hemp : fms.isEmpty = false := by
      cases fms with
      | nil => exact absurd rfl hne
      | cons a l => rfl
    simp [selectModels, orderStrategy, hs, hm, hemp, specificEligibleKeys,
      pickSpecific_map_canon]
  · intro c o cfgs hs hm
    rcases hm with hm | hm <;> simp [selectModels, orderStrategy, hs, hm]

/-- A registered model `y:b` used by the `specific-models` runs. -/
def cfgYb : ModelConfig := ⟨"b", "y", ⟨5, 5, 5, 5⟩, 1, 1⟩

/-- Options: `specific-models` with the caller list `["x:a", "y:b"]`. -/
def optsSpecXY : RequestOptions :=
  { fallbackStrategy := some FallbackStrategy.specificModels
    fallbackModels := some ["x:a", "y:b"] }

/-- Options: `specific-models` with an empty caller list. -/
def optsSpecEmpty : RequestOptions :=
  { fallbackStrategy := some FallbackStrategy.specificModels
    fallbackModels := some [] }

/-- Options: `specific-models` over a registered model, but with a
preferred-provider filter that removes it from the eligible set. -/
def optsSpecFiltered : RequestOptions :=
  { preferredProvider := some "other"
    fallbackStrategy := some FallbackStrategy.specificModels
    fallbackModels := some ["y:b"] }

/-- Counterexample to claim C2 as stated: the `specific-models` list is
intersected with the FILTERED eligible set, not with the registered set
— with `y:b` registered but excluded by a preferred-provider filter, the
candidate list is empty, while the claim (caller list restricted to
registered pairs) predicts `["y:b"]`. -/
theorem selectModels_specific_not_registered_restriction :
    selectModels TaskComplexity.SIMPLE optsSpecFiltered [cfgYb]
      = Except.ok [] ∧
    ["y:b"].filter (fun k => [cfgYb].any (fun m => decide (canonKey m = k)))
      = ["y:b"] ∧
    Except.ok ([] : List String)
      ≠ (Except.ok ["y:b"] : Except String (List String)) := by
  refine ⟨?_, by decide, by simp⟩
  simp [selectModels, orderStrategy, optsSpecFiltered, applyFilters,
    pickSpecific, cfgYb]

/-- Witness for the amended C2: with only `y:b` registered and no other
filters, the list `["x:a", "y:b"]` yields the singleton candidate list
`[y:b]`; and an empty list raises the configuration error. -/
theorem selectModels_specific_contract_witness :
    selectModels TaskComplexity.SIMPLE optsSpecXY [cfgYb]
      = Except.ok ["y:b"] ∧
    selectModels TaskComplexity.SIMPLE optsSpecEmpty [cfgYb]
      = Except.error specificModelsErr := by
  constructor
  · have h := selectModels_specific_contract.1 TaskComplexity.SIMPLE optsSpecXY
      [cfgYb] ["x:a", "y:b"] rfl rfl (by simp)
    rw [h]
    simp [specificEligibleKeys, applyFilters, optsSpecXY, cfgYb, splitKey,
      splitColon, List.find?, canonKey]
  · exact selectModels_specific_contract.2 TaskComplexity.SIMPLE optsSpecEmpty
      [cfgYb] rfl (Or.inr rfl)

/-- Claim C9 (amended, proved): when `maxCost` is supplied AND nonzero,
every model surviving the filter phase has estimated cost
(`costPerInputToken * 1000 + costPerOutputToken * 1000`) within the
bound — equivalently, every profile exceeding the bound is excluded. -/
theorem applyFilters_maxCost_excludes
    (o : RequestOptions) (cfgs : List ModelConfig) (c : ℚ) (m : ModelConfig)
    (hc : o.maxCost = some c) (hnz : c ≠ 0)
    (hm : m ∈ applyFilters o cfgs) : cost1000 m ≤ c := by
  simp only [applyFilters, hc, if_neg hnz] at hm
  exact of_decide_eq_true (List.mem_filter.mp hm).2

/-- The claim's own example profile: `costPerInputToken = 0.00002` (and
no output cost). -/
def cfgCostly : ModelConfig := ⟨"m", "p", ⟨5, 5, 5, 5⟩, 0.00002, 0⟩

/-- Options supplying `maxCost = 0`. -/
def optsZeroCost : RequestOptions := { maxCost := some 0 }

/-- Options supplying `maxCost = 1`. -/
def optsOneCost : RequestOptions := { maxCost := some 1 }

/-- Options supplying the claim's example bound `maxCost = 0.00001`. -/
def optsTinyCost : RequestOptions := { maxCost := some 0.00001 }

/-- Counterexample to claim C9 as stated: with `maxCost = 0` supplied,
the dispatcher's `if (options.maxCost)` guard is falsy and the cost
filter is skipped entirely, so a profile of positive estimated cost
(0.02 per the fixed unit volume) survives even though it exceeds the
bound. -/
theorem applyFilters_maxCost_zero_disabled :
    applyFilters optsZeroCost [cfgCostly] = [cfgCostly] ∧
    (0 : ℚ) < cost1000 cfgCostly ∧
    applyFilters optsZeroCost [cfgCostly] ≠ [] := by
  refine ⟨by simp [applyFilters, optsZeroCost], ?_, ?_⟩
  · norm_num [cost1000, cfgCostly]
  · simp [applyFilters, optsZeroCost]

/-- Witness for the amended C9: with the nonzero bound 1 the example
profile survives (its 0.02 estimate is within the bound), and the
theorem yields that very inequality. -/
theorem applyFilters_maxCost_excludes_witness :
    cfgCostly ∈ applyFilters optsOneCost [cfgCostly] ∧
    cost1000 cfgCostly ≤ 1 ∧
    applyFilters optsTinyCost [cfgCostly] = [] := by
  have hmem : cfgCostly ∈ applyFilters optsOneCost [cfgCostly] := by
    have hle : cost1000 cfgCostly ≤ 1 := by norm_num [cost1000, cfgCostly]
    simp [applyFilters, optsOneCost, hle]
  refine ⟨hmem,
    applyFilters_maxCost_excludes optsOneCost [cfgCostly] 1 cfgCostly rfl
      (by norm_num) hmem, ?_⟩
  have hgt : ¬ cost1000 cfgCostly ≤ 0.00001 := by
    norm_num [cost1000, cfgCostly]
  have hnz : ¬ ((0.00001 : ℚ) = 0) := by norm_num
  simp [applyFilters, optsTinyCost, hgt, hnz]

lemma pickSpecific_nil : ∀ fms : List String, pickSpecific [] fms = [] := by
  intro fms
  induction fms with
  | nil => rfl
  | cons k rest ih => simp [pickSpecific, List.find?, ih]

lemma orderStrategy_empty (c : TaskComplexity) (o : RequestOptions)
    (hcfg : o.fallbackStrategy = some FallbackStrategy.specificModels →
        ∃ fms, o.fallbackModels = some fms ∧ fms ≠ []) :
    orderStrategy c o [] = Except.ok [] := by
  cases hs : o.fallbackStrategy with
  | none => cases c <;> simp [orderStrategy, hs, sortStable]
  | some s =>
    cases s with
    | costAscending => simp [orderStrategy, hs, sortStable]
    | capabilityDescending => simp [orderStrategy, hs, sortStable]
    | specificModels =>
      obtain ⟨fms, hm, hne⟩ := hcfg hs
      have hemp : fms.isEmpty = false := by
        cases fms with
        | nil => exact absurd rfl hne
        | cons a l => rfl
      simp [orderStrategy, hs, hm, hemp, pickSpecific_nil]

/-- Claim C3 (confirmed): when the option filters leave no eligible
candidate (and the request is not separately misconfigured with an
absent or empty `specific-models` list, the configuration error C2
covers), `processPrompt` does not fail with a distinct
no-eligible-candidates error at selection time: after a cache miss it
reaches the candidate loop with zero candidates and terminates with the
very same all-candidates-failed error used when every attempted
candidate fails. -/
theorem processPrompt_empty_eligible_all_failed
    (env : RouterEnv) (router : RouterState) (st st1 : CacheState)
    (prompt : String) (o : RequestOptions)
    (hmiss : cachePhase env router st prompt o = (none, st1))
    (hempty : applyFilters o router.modelConfigs = [])
    (hcfg : o.fallbackStrategy = some FallbackStrategy.specificModels →
        ∃ fms, o.fallbackModels = some fms ∧ fms ≠ []) :
    processPrompt env router st prompt o
      = (Except.error "All models failed to generate a response", st1) := by
  have hord := orderStrategy_empty (classifyTask prompt) o hcfg
  simp [processPrompt, hmiss, selectModels, hempty, hord, tryModels]

/-- The ambient inputs of the concrete dispatcher runs: exact rational
square root, the identity as a stand-in fingerprint function, time 0. -/
def envW : RouterEnv := ⟨ratSqrt, fun s => s, 0⟩

/-- A router with nothing registered (semantic caching on). -/
def routerEmpty : RouterState := ⟨[], [], true⟩

/-- An empty cache with the 24-hour default TTL. -/
def stEmpty : CacheState := ⟨[], [], 86400000⟩

/-- Witness for C3 at a concrete input: with nothing registered the
eligible set is empty, the cache misses, and the request terminates with
the all-candidates-failed error, the cache state untouched. -/
theorem processPrompt_empty_eligible_all_failed_witness :
    cachePhase envW routerEmpty stEmpty "p" {} = (none, stEmpty) ∧
    applyFilters {} routerEmpty.modelConfigs = [] ∧
    processPrompt envW routerEmpty stEmpty "p" {}
      = (Except.error "All models failed to generate a response", stEmpty) := by
  have hmiss : cachePhase envW routerEmpty stEmpty "p" {} = (none, stEmpty) := by
    simp [cachePhase, envW, routerEmpty, stEmpty, cacheGet, mapGet,
      getProviderByName, orElseStr]
  refine ⟨hmiss, rfl, ?_⟩
  exact processPrompt_empty_eligible_all_failed envW routerEmpty stEmpty stEmpty
    "p" {} hmiss rfl (fun h => by cases h)

lemma mapDelete_sublist {β : Type} (k : String) (l : List (String × β)) :
    (mapDelete k l).Sublist l := by
  induction l with
  | nil => simp [mapDelete]
  | cons hd tl ih =>
    by_cases h : hd.1 = k
    · simp only [mapDelete, h, if_pos]
      exact List.sublist_cons_self hd tl
    · simpa [mapDelete, h] using ih.cons₂ hd

lemma cacheGet_state_shrinks (st : CacheState) (key : String) (now : ℚ) :
    (cacheGet st key now).2.cache.Sublist st.cache ∧
    (cacheGet st key now).2.semanticCache = st.semanticCache := by
  cases hg : mapGet key st.cache with
  | none => simp [cacheGet, hg]
  | some e =>
    by_cases h : now > e.expiresAt
    · simp [cacheGet, hg, h, mapDelete_sublist]
    · simp [cacheGet, hg, h]

lemma clearExpired_shrinks (st : CacheState) (now : ℚ) :
    (clearExpired st now).cache.Sublist st.cache ∧
    (clearExpired st now).semanticCache.Sublist st.semanticCache := by
  exact ⟨List.filter_sublist st.cache, List.filter_sublist st.semanticCache⟩

lemma cachePhase_shrinks (env : RouterEnv) (router : RouterState)
    (st st1 : CacheState) (prompt : String) (o : RequestOptions)
    (r : Option LLMResponse)
    (h : cachePhase env router st prompt o = (r, st1)) :
    st1.cache.Sublist st.cache ∧
    st1.semanticCache.Sublist st.semanticCache := by
  by_cases hcr : o.cacheResults = some false
  · simp [cachePhase, hcr] at h
    rw [← h.2]
    exact ⟨List.Sublist.refl _, List.Sublist.refl _⟩
  · have hget := cacheGet_state_shrinks st (env.hash prompt) env.now
    rcases hge : cacheGet st (env.hash prompt) env.now with ⟨r0, st2⟩
    rw [hge] at hget
    have hst2 : st2.cache.Sublist st.cache ∧
        st2.semanticCache.Sublist st.semanticCache := by
      exact ⟨hget.1, hget.2 ▸ List.Sublist.refl _⟩
    cases r0 with
    | some r2 =>
      simp [cachePhase, hcr, hge] at h
      rw [← h.2]
      exact hst2
    | none =>
      by_cases hsem : router.useSemantic
      · cases hp : getProviderByName router (orElseStr o.preferredProvider "openai")
            (orElseStr o.preferredModel "text-embedding-3-small") with
        | none =>
          simp [cachePhase, hcr, hge, hsem, hp] at h
          rw [← h.2]
          exact hst2
        | some p =>
          cases hemb : p.embedding prompt with
          | error msg =>
            simp [cachePhase, hcr, hge, hsem, hp, hemb] at h
            rw [← h.2]
            exact hst2
          | ok emb =>
            have hclear := clearExpired_shrinks st2 env.now
            have hsub : (clearExpired st2 env.now).cache.Sublist st.cache ∧
                (clearExpired st2 env.now).semanticCache.Sublist
                  st.semanticCache :=
              ⟨hclear.1.trans hst2.1, hclear.2.trans hst2.2⟩
            cases hloop : findSemLoop env.sqrtQ emb
                (clearExpired st2 env.now).semanticCache with
            | error msg =>
              simp [cachePhase, hcr, hge, hsem, hp, hemb, findSemantically,
                hloop] at h
              rw [← h.2]
              exact hsub
            | ok r1 =>
              simp [cachePhase, hcr, hge, hsem, hp, hemb, findSemantically,
                hloop] at h
              rw [← h.2]
              exact hsub
      · simp [cachePhase, hcr, hge, hsem] at h
        rw [← h.2]
        exact hst2

lemma tryModels_all_fail (env : RouterEnv) (router : RouterState)
    (st : CacheState) (prompt : String) (o : RequestOptions) :
    ∀ keys : List String,
      (∀ k ∈ keys,
        mapGet (candidateLookupKey k) router.providers = none ∨
        ∃ p, mapGet (candidateLookupKey k) router.providers = some p ∧
          ∃ msg, p.completion prompt = Except.error msg) →
      tryModels env router st prompt o keys
        = (Except.error "All models failed to generate a response", st) := by
  intro keys
  induction keys with
  | nil => intro _; rfl
  | cons k rest ih =>
    intro h
    have hrest := ih (fun x hx => h x (by simp [hx]))
    rcases h k (by simp) with hk | ⟨p, hp, msg, hmsg⟩
    · simp [tryModels, hk, hrest]
    · simp [tryModels, hp, hmsg, hrest]

/-- Claim C7 (amended, proved): with no cache hit, when every ordered
candidate is unregistered or its completion call fails, `processPrompt`
terminates with the single all-candidates-failed error and writes
nothing to the cache: the final exact and semantic indexes are sublists
of the initial ones (they can differ from the initial state only by the
lazy eviction of already-expired entries, never by an addition). -/
theorem processPrompt_all_failed_no_cache_write
    (env : RouterEnv) (router : RouterState) (st st1 : CacheState)
    (prompt : String) (o : RequestOptions) (keys : List String)
    (hmiss : cachePhase env router st prompt o = (none, st1))
    (hsel : selectModels (classifyTask prompt) o router.modelConfigs
        = Except.ok keys)
    (hfail : ∀ k ∈ keys,
        mapGet (candidateLookupKey k) router.providers = none ∨
        ∃ p, mapGet (candidateLookupKey k) router.providers = some p ∧
          ∃ msg, p.completion prompt = Except.error msg) :
    processPrompt env router st prompt o
      = (Except.error "All models failed to generate a response", st1) ∧
    st1.cache.Sublist st.cache ∧
    st1.semanticCache.Sublist st.semanticCache := by
  have htry := tryModels_all_fail env router st1 prompt o keys hfail
  have hshrink := cachePhase_shrinks env router st st1 prompt o none hmiss
  exact ⟨by simp [processPrompt, hmiss, hsel, htry], hshrink⟩

/-- A router with one registered config (`y:b`) but no provider object
behind it, semantic caching off. -/
def routerC7 : RouterState := ⟨[], [cfgYb], false⟩

/-- A cache whose only exact-index binding (under the fingerprint of
`"p"`) is already expired at time 0. -/
def stExp : CacheState := ⟨[("p", expiredEntry)], [], 86400000⟩

/-- Counterexample to claim C7 as stated: on the all-candidates-fail
path the cache state is NOT always exactly what it was before the
request — the exact-index lookup lazily evicts the expired binding, so
the request ends with the all-candidates-failed error but a strictly
smaller exact index. -/
theorem processPrompt_failure_path_evicts :
    processPrompt envW routerC7 stExp "p" {}
      = (Except.error "All models failed to generate a response", stEmpty) ∧
    stEmpty ≠ stExp := by
  constructor
  · rfl
  · decide

/-- Witness for the amended C7 at a concrete input: an empty cache
misses, the single candidate `y:b` has no provider object, the request
ends with the all-candidates-failed error, and the final indexes are
sublists of the initial ones. -/
theorem processPrompt_all_failed_no_cache_write_witness :
    processPrompt envW routerC7 stEmpty "p" {}
      = (Except.error "All models failed to generate a response", stEmpty) ∧
    stEmpty.cache.Sublist stEmpty.cache ∧
    stEmpty.semanticCache.Sublist stEmpty.semanticCache := by
  have hmiss : cachePhase envW routerC7 stEmpty "p" {} = (none, stEmpty) := rfl
  have hsel : selectModels (classifyTask "p") {} routerC7.modelConfigs
      = Except.ok ["y:b"] := rfl
  refine processPrompt_all_failed_no_cache_write envW routerC7 stEmpty stEmpty
    "p" {} ["y:b"] hmiss hsel ?_
  intro k hk
  rcases List.mem_singleton.mp hk with rfl
  exact Or.inl rfl
